import Mathlib

/-!
Shallow embedding of `q2_types/per_sample_sequences/_format.py`.

A text stream is modelled as the list of lines that Python's `readline` /
file iteration yields: each element is one line, normally ending in `'\n'`
(the final line of a file may lack it).  `readline` returns `''` only at
end of file, which the end of the list models.  A binary stream is a list
of byte values (`List Nat`).

External capabilities (the skbio FASTQ sniffer/reader, the skbio DNA
alphabet, the pyyaml parser) are not part of the repository; following the
spec they are treated as black boxes, passed in as parameters or modelled
from the spec's words where a claim needs their concrete verdict.
-/

/-- The whitespace characters recognised by Python's `str.isspace` and by
no-separator `str.split`: the ASCII spaces `\t \n \v \f \r` and `' '`, the
information separators U+001C to U+001F, next line U+0085, no-break space
U+00A0, and the Unicode spaces U+1680, U+2000 to U+200A, the line and
paragraph separators U+2028 and U+2029, U+202F, U+205F and U+3000. -/
def isPySpace (c : Char) : Bool :=
  let n := c.toNat
  (9 ≤ n && n ≤ 13) || (28 ≤ n && n ≤ 31) || n = 32 || n = 133 || n = 160 ||
    n = 0x1680 || (0x2000 ≤ n && n ≤ 0x200a) || n = 0x2028 || n = 0x2029 ||
    n = 0x202f || n = 0x205f || n = 0x3000

/-- Drop the trailing characters of a character list satisfying `p`
(Python `str.rstrip`). -/
def dropRightWhileChar (p : Char → Bool) (cs : List Char) : List Char :=
  (cs.reverse.dropWhile p).reverse

/-- Python `str.split(sep)` for a one-character separator `sep`: split at
every occurrence, keeping empty pieces, so the empty string yields `[[]]`
and a trailing separator yields a trailing empty piece. -/
def splitOnChar (sep : Char) : List Char → List (List Char)
  | [] => [[]]
  | c :: rest =>
    if c = sep then [] :: splitOnChar sep rest
    else
      match splitOnChar sep rest with
      | [] => [[c]]
      | g :: gs => (c :: g) :: gs

/-- Python `line.rstrip('\n')`: drop trailing newline characters. -/
def pyRstripNL (s : String) : String :=
  String.mk (dropRightWhileChar (fun c => c = '\n') s.toList)

/-- The blank-line test of `_FastqManifestBase.sniff`:
`line.lstrip(' ') == '\n'`.  Only spaces are stripped from the left. -/
def isBlankLine (line : String) : Bool :=
  line.toList.dropWhile (fun c => c = ' ') = ['\n']

/-- The comment-line test of `_FastqManifestBase.sniff`:
`line.startswith('#')`. -/
def isCommentLine (line : String) : Bool :=
  match line.toList with
  | '#' :: _ => true
  | _ => false

/-- `line.rstrip('\n').split(',')` of `_FastqManifestBase.sniff`. -/
def rowCells (line : String) : List String :=
  (splitOnChar ',' (pyRstripNL line).toList).map String.mk

/-- The loop of `_FastqManifestBase.sniff`: scan lines, skipping blank and
comment lines, matching the first remaining line against the expected
header and counting conforming data lines, stopping after 10 data lines.
The Python loop checks `data_lines < 10` before each `readline`; the
return expression `header is not None and data_lines > 0` is the same on
every normal exit path, so checking the cap at the head of the cons case
is equivalent. -/
def FastqManifestBase.sniffAux (exp : List String) :
    List String → Nat → Option (List String) → Bool
  | [], dataLines, header =>
    header.isSome && decide (0 < dataLines)
  | line :: rest, dataLines, header =>
    if 10 ≤ dataLines then header.isSome && decide (0 < dataLines)
    else if isBlankLine line then FastqManifestBase.sniffAux exp rest dataLines header
    else if isCommentLine line then FastqManifestBase.sniffAux exp rest dataLines header
    else
      match header with
      | none =>
        if rowCells line = exp then
          FastqManifestBase.sniffAux exp rest dataLines (some (rowCells line))
        else false
      | some hd =>
        if (rowCells line).length = hd.length then
          FastqManifestBase.sniffAux exp rest (dataLines + 1) (some hd)
        else false

/-- `_FastqManifestBase.sniff`, parameterised by the class attribute
`EXPECTED_HEADER` exactly as the base class is. -/
def FastqManifestBase.sniff (EXPECTED_HEADER : List String) (lines : List String) : Bool :=
  FastqManifestBase.sniffAux EXPECTED_HEADER lines 0 none

/-- `FastqManifestFormat.EXPECTED_HEADER`. -/
def FastqManifestFormat.EXPECTED_HEADER : List String :=
  ["sample-id", "filename", "direction"]

/-- `FastqAbsolutePathManifestFormat.EXPECTED_HEADER`. -/
def FastqAbsolutePathManifestFormat.EXPECTED_HEADER : List String :=
  ["sample-id", "absolute-filepath", "direction"]

/-- `FastqManifestFormat.sniff` (relative-path variant). -/
def FastqManifestFormat.sniff (lines : List String) : Bool :=
  FastqManifestBase.sniff FastqManifestFormat.EXPECTED_HEADER lines

/-- `FastqAbsolutePathManifestFormat.sniff` (absolute-path variant). -/
def FastqAbsolutePathManifestFormat.sniff (lines : List String) : Bool :=
  FastqManifestBase.sniff FastqAbsolutePathManifestFormat.EXPECTED_HEADER lines

/-! Reformulation helpers for the manifest sniffer, used only in proofs:
the meaningful (non-blank, non-comment) lines of a stream, and the
data-row counting phase once the header has been matched.  They are proved
extensionally equal to `FastqManifestBase.sniffAux` below. -/

/-- A line that the manifest sniffer neither skips as blank nor as comment. -/
def meaningfulPred (line : String) : Bool :=
  !(isBlankLine line) && !(isCommentLine line)

/-- The lines of a stream that the manifest sniffer actually examines. -/
def meaningfulLines (lines : List String) : List String :=
  lines.filter meaningfulPred

/-- The data-row phase of the manifest sniffer over meaningful lines only:
`expLen` is the header's cell count, `d` the number of data lines already
accepted. -/
def countRows (expLen : Nat) : List String → Nat → Bool
  | [], d => decide (0 < d)
  | row :: rest, d =>
    if 10 ≤ d then decide (0 < d)
    else if (rowCells row).length = expLen then countRows expLen rest (d + 1)
    else false

/-- Modelled from the spec: the external YAML parser (pyyaml `safe_load`)
invoked by `YamlFormat.sniff`, which raises `YAMLError` only on malformed
input.  The empty stream is well-formed YAML (a stream of zero documents,
loading as `null`), so the parser succeeds there.  The claims about
`YamlFormat` exercise only the empty stream; the model is exact there and
no claim depends on its value elsewhere. -/
def yamlSafeLoadOk (_content : String) : Bool :=
  true

/-- `YamlFormat.sniff`: parse with the external YAML parser, returning
`false` exactly when it raises `yaml.YAMLError`. -/
def YamlFormat.sniff (loadOk : String → Bool) (content : String) : Bool :=
  loadOk content

/-- The gzip magic bytes `b'\x1f\x8b'` checked by `FastqGzFormat.sniff`. -/
def gzipMagic : List Nat := [0x1f, 0x8b]

/-- `FastqGzFormat.sniff`.  The two external capabilities are passed as
parameters: `fastqSniffOk` is the verdict of skbio's registered fastq
sniffer, and `readFirst15` the outcome of materialising the first 15
records with `skbio.io.read` and DNA alphabet verification
(`Except.error ()` models the `ValueError` skbio raises on invalid DNA
characters or malformed records, which the code catches). -/
def FastqGzFormat.sniff (contents : List Nat) (fastqSniffOk : Bool)
    (readFirst15 : Except Unit Unit) : Bool :=
  if contents.take 2 ≠ gzipMagic then false
  else if fastqSniffOk then
    match readFirst15 with
    | Except.ok _ => true
    | Except.error _ => false
  else false

/-- Modelled from the spec: the external DNA-alphabet check
(`skbio.DNA(seq, validate=True)`), which raises `ValueError` iff some
character lies outside the IUPAC DNA character set: definite characters
ACGT, degenerate characters RYKMSWBDHVN, and the gap characters `-` and
`.` (lowercase is not accepted). -/
def isDNAChar (c : Char) : Bool :=
  "ACGTRYKMSWBDHVN-.".toList.contains c

/-- Python `id.rsplit('_', maxsplit=1)`: split on the last underscore into
at most two pieces; a string without an underscore stays whole. -/
def pyRsplitUnderscore (s : String) : List String :=
  match splitOnChar '_' s.toList with
  | [] => [s]
  | [p] => [String.mk p]
  | parts => [String.mk (List.intercalate ['_'] parts.dropLast),
              String.mk (parts.getLastD [])]

/-- `QIIME1DemuxFormat._parse_id`: the header must start with `>`
(otherwise the record is rejected, modelled as `none`); the ID is the run
of non-whitespace characters immediately after `>`, or `''` when the
header is bare or continues with whitespace. -/
def QIIME1DemuxFormat.parseId (header : String) : Option String :=
  match header.toList with
  | '>' :: rest =>
    match rest with
    | [] => some ""
    | c :: _ =>
      if isPySpace c then some ""
      else some (String.mk (rest.takeWhile (fun ch => !(isPySpace ch))))
  | _ => none

/-- `QIIME1DemuxFormat._validate_id`: the ID must split on its last
underscore into exactly two non-empty pieces. -/
def QIIME1DemuxFormat.validId (id : String) : Bool :=
  let pieces := pyRsplitUnderscore id
  pieces.length = 2 && pieces.all (fun p => p ≠ "")

/-- `QIIME1DemuxFormat._validate_seq`: the sequence must be non-empty and
all its characters valid DNA. -/
def QIIME1DemuxFormat.validSeq (seq : String) : Bool :=
  seq ≠ "" && seq.toList.all isDNAChar

/-- The record ID the validator extracts from a raw header line (defaulting
to `''` when the header does not start with `>`). -/
def QIIME1DemuxFormat.recordId (headerLine : String) : String :=
  (QIIME1DemuxFormat.parseId (pyRstripNL headerLine)).getD ""

/-- The loop of `QIIME1DemuxFormat._validate`: pair lines two at a time
(`itertools.zip_longest(*[filehandle] * 2)` capped by
`range(num_records)`), and per record check — in source order — the `>`
prefix, ID uniqueness, the ID grammar, and the sequence.  `none` models a
raised exception; `some ids` is the set of accumulated IDs when the loop
finishes.  A stream ending in a lone line is an incomplete record. -/
def QIIME1DemuxFormat.scanRecords : List String → Nat → List String → Option (List String)
  | _, 0, ids => some ids
  | [], _ + 1, ids => some ids
  | [_], _ + 1, _ => none
  | h :: s :: rest, fuel + 1, ids =>
    match QIIME1DemuxFormat.parseId (pyRstripNL h) with
    | none => none
    | some id =>
      if id ∈ ids then none
      else if QIIME1DemuxFormat.validId id then
        if QIIME1DemuxFormat.validSeq (pyRstripNL s) then
          QIIME1DemuxFormat.scanRecords rest fuel (id :: ids)
        else none
      else none

/-- `QIIME1DemuxFormat._validate` wrapped as its boolean outcome: `false`
iff it raises — either during the loop, or afterwards because no record
was seen (`if not ids: raise`). -/
def QIIME1DemuxFormat.validate (lines : List String) (numRecords : Nat) : Bool :=
  match QIIME1DemuxFormat.scanRecords lines numRecords [] with
  | none => false
  | some ids => decide (ids ≠ [])

/-- `QIIME1DemuxFormat.sniff`: validate the first 30 records, mapping any
raised failure to `false`. -/
def QIIME1DemuxFormat.sniff (lines : List String) : Bool :=
  QIIME1DemuxFormat.validate lines 30

/-- The lines of a stream made of exactly-two-line records. -/
def recordLines : List (String × String) → List String
  | [] => []
  | (h, s) :: rest => h :: s :: recordLines rest

/-- `'%03d' % n`: decimal rendering zero-padded to a minimum width of 3. -/
def sprintf03d (n : Nat) : String :=
  if n < 1000 then
    String.mk [Nat.digitChar (n / 100), Nat.digitChar (n / 10 % 10), Nat.digitChar (n % 10)]
  else toString n

/-- `CasavaOneEightSingleLanePerSampleDirFmt.sequences_path_maker`:
`'%s_%s_L%03d_R%d_001.fastq.gz' % (sample_id, barcode_id, lane_number,
read_number)`. -/
def CasavaOneEightSingleLanePerSampleDirFmt.sequences_path_maker
    (sample_id barcode_id : String) (lane_number read_number : Nat) : String :=
  sample_id ++ "_" ++ barcode_id ++ "_L" ++ sprintf03d lane_number ++ "_R" ++
    toString read_number ++ "_001.fastq.gz"

/-- `CasavaOneEightLanelessPerSampleDirFmt.sequences_path_maker`:
`'%s_%s_R%d_001.fastq.gz' % (sample_id, barcode_id, read_number)`. -/
def CasavaOneEightLanelessPerSampleDirFmt.sequences_path_maker
    (sample_id barcode_id : String) (read_number : Nat) : String :=
  sample_id ++ "_" ++ barcode_id ++ "_R" ++ toString read_number ++ "_001.fastq.gz"

/-- The character class `[0-9]` of the Casava path patterns. -/
def isRegexDigit (c : Char) : Bool :=
  decide ('0' ≤ c) && decide (c ≤ '9')

/-- Full-match semantics of the pattern
`.+_.+_L[0-9][0-9][0-9]_R[12]_001\.fastq\.gz` of
`CasavaOneEightSingleLanePerSampleDirFmt.sequences`.  Python's `.` matches
any character except a newline. -/
def matchesCasavaRegex (s : String) : Prop :=
  ∃ a b d1 d2 d3 r, a ≠ [] ∧ b ≠ [] ∧
    (∀ c ∈ a, c ≠ '\n') ∧ (∀ c ∈ b, c ≠ '\n') ∧
    isRegexDigit d1 = true ∧ isRegexDigit d2 = true ∧ isRegexDigit d3 = true ∧
    (r = '1' ∨ r = '2') ∧
    s.toList = a ++ '_' ::
      (b ++ '_' :: 'L' :: d1 :: d2 :: d3 :: '_' :: 'R' :: r :: "_001.fastq.gz".toList)

/-- Full-match semantics of the pattern `.+_.+_R[12]_001\.fastq\.gz` of
`CasavaOneEightLanelessPerSampleDirFmt.sequences`. -/
def matchesLanelessRegex (s : String) : Prop :=
  ∃ a b r, a ≠ [] ∧ b ≠ [] ∧
    (∀ c ∈ a, c ≠ '\n') ∧ (∀ c ∈ b, c ≠ '\n') ∧
    (r = '1' ∨ r = '2') ∧
    s.toList = a ++ '_' :: (b ++ '_' :: 'R' :: r :: "_001.fastq.gz".toList)

/-! Lemmas about the manifest sniffer. -/

/-- Once 10 data lines are accepted the scan's verdict no longer depends on
the remaining lines. -/
lemma sniffAux_cap (exp : List String) (lines : List String) (d : Nat)
    (header : Option (List String)) (hd : 10 ≤ d) :
    FastqManifestBase.sniffAux exp lines d header = (header.isSome && decide (0 < d)) := by
  cases lines with
  | nil => rfl
  | cons l rest => simp [FastqManifestBase.sniffAux, hd]

/-- A blank line at the head of the stream is skipped. -/
lemma sniffAux_blank_cons (exp : List String) (bl : String) (hbl : isBlankLine bl = true)
    (lines : List String) (d : Nat) (header : Option (List String)) :
    FastqManifestBase.sniffAux exp (bl :: lines) d header =
      FastqManifestBase.sniffAux exp lines d header := by
  by_cases hcap : 10 ≤ d
  · rw [sniffAux_cap exp (bl :: lines) d header hcap, sniffAux_cap exp lines d header hcap]
  · simp [FastqManifestBase.sniffAux, hcap, hbl]

/-- Inserting a blank line anywhere in the stream leaves the scan's verdict
unchanged, from any scan state. -/
lemma sniffAux_insert_blank (exp : List String) (bl : String) (hbl : isBlankLine bl = true)
    (post : List String) :
    ∀ (pre : List String) (d : Nat) (header : Option (List String)),
      FastqManifestBase.sniffAux exp (pre ++ bl :: post) d header =
        FastqManifestBase.sniffAux exp (pre ++ post) d header := by
  intro pre
  induction pre with
  | nil =>
    intro d header
    exact sniffAux_blank_cons exp bl hbl post d header
  | cons l rest ih =>
    intro d header
    by_cases hcap : 10 ≤ d
    · rw [sniffAux_cap exp _ d header hcap, sniffAux_cap exp _ d header hcap]
    · by_cases hb : isBlankLine l
      · simp [FastqManifestBase.sniffAux, hcap, hb, ih]
      · by_cases hc : isCommentLine l
        · simp [FastqManifestBase.sniffAux, hcap, hb, hc, ih]
        · cases header with
          | none =>
            by_cases hh : rowCells l = exp
            · simp [FastqManifestBase.sniffAux, hcap, hb, hc, hh, ih]
            · simp [FastqManifestBase.sniffAux, hcap, hb, hc, hh]
          | some hdr =>
            by_cases hl : (rowCells l).length = hdr.length
            · simp [FastqManifestBase.sniffAux, hcap, hb, hc, hl, ih]
            · simp [FastqManifestBase.sniffAux, hcap, hb, hc, hl]

/-- After the header has been matched, the scan over the raw stream is the
data-row count over the meaningful lines. -/
lemma sniffAux_some_eq_countRows (exp : List String) :
    ∀ (lines : List String) (d : Nat),
      FastqManifestBase.sniffAux exp lines d (some exp) =
        countRows exp.length (meaningfulLines lines) d := by
  intro lines
  induction lines with
  | nil => intro d; simp [FastqManifestBase.sniffAux, meaningfulLines, countRows]
  | cons l rest ih =>
    intro d
    by_cases hb : isBlankLine l
    · have hm : meaningfulLines (l :: rest) = meaningfulLines rest := by
        simp [meaningfulLines, meaningfulPred, List.filter, hb]
      rw [sniffAux_blank_cons exp l hb rest d (some exp), hm, ih]
    · by_cases hc : isCommentLine l
      · have hm : meaningfulLines (l :: rest) = meaningfulLines rest := by
          simp [meaningfulLines, meaningfulPred, List.filter, hb, hc]
        by_cases hcap : 10 ≤ d
        · rw [sniffAux_cap exp _ d _ hcap, hm, ← ih d, sniffAux_cap exp rest d _ hcap]
        · simp only [FastqManifestBase.sniffAux]
          rw [if_neg hcap, if_neg (by simp [hb]), if_pos hc, hm, ih]
      · have hm : meaningfulLines (l :: rest) = l :: meaningfulLines rest := by
          simp [meaningfulLines, meaningfulPred, List.filter, hb, hc]
        by_cases hcap : 10 ≤ d
        · rw [sniffAux_cap exp _ d _ hcap, hm]
          simp [countRows, hcap]
        · by_cases hl : (rowCells l).length = exp.length <;>
            simp [FastqManifestBase.sniffAux, countRows, hcap, hb, hc, hl, hm, ih]

/-- The whole manifest sniff, characterised by the meaningful lines: a
verdict of `false` when there are none, otherwise the header match on the
first one followed by the data-row count on the rest. -/
lemma sniff_eq_meaningful (exp : List String) :
    ∀ lines : List String,
      FastqManifestBase.sniff exp lines =
        (match meaningfulLines lines with
         | [] => false
         | h :: rows => if rowCells h = exp then countRows exp.length rows 0 else false) := by
  intro lines
  induction lines with
  | nil => simp [FastqManifestBase.sniff, FastqManifestBase.sniffAux, meaningfulLines]
  | cons l rest ih =>
    by_cases hb : isBlankLine l
    · have hm : meaningfulLines (l :: rest) = meaningfulLines rest := by
        simp [meaningfulLines, meaningfulPred, List.filter, hb]
      unfold FastqManifestBase.sniff at ih ⊢
      rw [sniffAux_blank_cons exp l hb rest 0 none, hm, ih]
    · by_cases hc : isCommentLine l
      · have hm : meaningfulLines (l :: rest) = meaningfulLines rest := by
          simp [meaningfulLines, meaningfulPred, List.filter, hb, hc]
        unfold FastqManifestBase.sniff at ih ⊢
        simp only [FastqManifestBase.sniffAux]
        rw [if_neg (by norm_num), if_neg (by simp [hb]), if_pos hc, hm, ← ih]
      · have hm : meaningfulLines (l :: rest) = l :: meaningfulLines rest := by
          simp [meaningfulLines, meaningfulPred, List.filter, hb, hc]
        rw [hm]
        show FastqManifestBase.sniff exp (l :: rest) =
          if rowCells l = exp then countRows exp.length (meaningfulLines rest) 0 else false
        unfold FastqManifestBase.sniff
        by_cases hh : rowCells l = exp
        · simp [FastqManifestBase.sniffAux, hb, hc, hh, sniffAux_some_eq_countRows]
        · simp [FastqManifestBase.sniffAux, hb, hc, hh]

/-- Membership in a `take` is membership in the list. -/
lemma memOfMemTake {α : Type} {a : α} :
    ∀ {l : List α} {n : Nat}, a ∈ l.take n → a ∈ l := by
  intro l
  induction l with
  | nil => intro n h; simp [List.take] at h
  | cons x xs ih =>
    intro n h
    cases n with
    | zero => simp [List.take] at h
    | succ m =>
      rcases List.mem_cons.mp h with h | h
      · exact h ▸ List.mem_cons_self x xs
      · exact List.mem_cons_of_mem x (ih h)

/-- A list all of whose lines are meaningful is its own list of meaningful
lines. -/
lemma meaningfulLines_of_all (ls : List String)
    (h : ∀ l ∈ ls, meaningfulPred l = true) : meaningfulLines ls = ls := by
  induction ls with
  | nil => rfl
  | cons x xs ih =>
    have hx := h x (List.mem_cons_self x xs)
    have hxs : ∀ l ∈ xs, meaningfulPred l = true :=
      fun l hl => h l (List.mem_cons_of_mem x hl)
    simp [meaningfulLines, List.filter, hx]
    exact hxs

/-- If at least one data row is present and every row among the first
`10 - d` conforms to the header's cell count, the count succeeds. -/
lemma countRows_all_conform (expLen : Nat) :
    ∀ (rows : List String) (d : Nat), d ≤ 10 → (0 < d ∨ rows ≠ []) →
      (∀ r ∈ rows.take (10 - d), (rowCells r).length = expLen) →
      countRows expLen rows d = true := by
  intro rows
  induction rows with
  | nil =>
    intro d _ hne _
    rcases hne with hd | hne
    · simp [countRows, hd]
    · exact absurd rfl hne
  | cons r rest ih =>
    intro d hle hne hall
    by_cases hcap : 10 ≤ d
    · have : d = 10 := Nat.le_antisymm hle hcap
      simp [countRows, hcap, this]
    · have hdlt : d < 10 := Nat.lt_of_not_le hcap
      have htake : 10 - d = (10 - (d + 1)) + 1 := by omega
      have hr : (rowCells r).length = expLen := by
        apply hall r
        rw [htake]
        exact List.mem_cons_self r _
      have hrest : ∀ x ∈ rest.take (10 - (d + 1)), (rowCells x).length = expLen := by
        intro x hx
        apply hall x
        rw [htake]
        exact List.mem_cons_of_mem r hx
      have := ih (d + 1) (by omega) (Or.inl (by omega)) hrest
      simp [countRows, hcap, hr, this]

/-- If some row among the first `10 - d` diverges from the header's cell
count, the count fails, wherever that row sits. -/
lemma countRows_divergent (expLen : Nat) :
    ∀ (rows : List String) (d : Nat),
      (∃ r ∈ rows.take (10 - d), (rowCells r).length ≠ expLen) →
      countRows expLen rows d = false := by
  intro rows
  induction rows with
  | nil => intro d h; simp at h
  | cons r rest ih =>
    intro d h
    by_cases hcap : 10 ≤ d
    · have : 10 - d = 0 := by omega
      rw [this] at h
      simp at h
    · have htake : 10 - d = (10 - (d + 1)) + 1 := by omega
      rw [htake] at h
      rcases h with ⟨x, hx, hdiv⟩
      rcases List.mem_cons.mp hx with hx | hx
      · subst hx
        by_cases hr : (rowCells x).length = expLen
        · exact absurd hr hdiv
        · simp [countRows, hcap, hr]
      · by_cases hr : (rowCells r).length = expLen
        · have := ih (d + 1) ⟨x, hx, hdiv⟩
          simp [countRows, hcap, hr, this]
        · simp [countRows, hcap, hr]

/-- Rows beyond the first `10 - d` never influence the count. -/
lemma countRows_take (expLen : Nat) :
    ∀ (rows : List String) (d : Nat),
      countRows expLen rows d = countRows expLen (rows.take (10 - d)) d := by
  intro rows
  induction rows with
  | nil => intro d; simp [List.take]
  | cons r rest ih =>
    intro d
    by_cases hcap : 10 ≤ d
    · have : 10 - d = 0 := by omega
      simp [countRows, hcap, this]
    · have htake : 10 - d = (10 - (d + 1)) + 1 := by omega
      rw [htake]
      by_cases hr : (rowCells r).length = expLen
      · simp [countRows, hcap, hr]
        have h9 : 9 - d = 10 - (d + 1) := by omega
        rw [h9]
        exact ih (d + 1)
      · simp [countRows, hcap, hr]

/-! Lemmas about the QIIME 1 demultiplexed-FASTA validator. -/

/-- A stream of well-formed, pairwise-distinct records scans without
failure from any state whose accumulated IDs avoid the incoming ones; the
final ID set is non-empty whenever the starting one was, or whenever at
least one record was scanned with fuel to spare. -/
lemma QIIME1DemuxFormat.scanRecords_ok :
    ∀ (recs : List (String × String)) (fuel : Nat) (ids : List String),
      (∀ p ∈ recs,
        QIIME1DemuxFormat.parseId (pyRstripNL p.1) = some (QIIME1DemuxFormat.recordId p.1)
        ∧ QIIME1DemuxFormat.validId (QIIME1DemuxFormat.recordId p.1) = true
        ∧ QIIME1DemuxFormat.validSeq (pyRstripNL p.2) = true) →
      (recs.map (fun p => QIIME1DemuxFormat.recordId p.1)).Nodup →
      (∀ p ∈ recs, QIIME1DemuxFormat.recordId p.1 ∉ ids) →
      ∃ ids2, QIIME1DemuxFormat.scanRecords (recordLines recs) fuel ids = some ids2
        ∧ (ids ≠ [] → ids2 ≠ [])
        ∧ (recs ≠ [] → fuel ≠ 0 → ids2 ≠ []) := by
  intro recs
  induction recs with
  | nil =>
    intro fuel ids _ _ _
    refine ⟨ids, ?_, fun h => h, fun h => absurd rfl h⟩
    cases fuel <;> rfl
  | cons p rest ih =>
    intro fuel ids hwf hnodup havoid
    obtain ⟨h, s⟩ := p
    cases fuel with
    | zero =>
      exact ⟨ids, rfl, fun hne => hne, fun _ hf => absurd rfl hf⟩
    | succ f =>
      obtain ⟨hparse, hvid, hvseq⟩ := hwf (h, s) (List.mem_cons_self _ _)
      have hnotmem : QIIME1DemuxFormat.recordId h ∉ ids :=
        havoid (h, s) (List.mem_cons_self _ _)
      have hheadmap : QIIME1DemuxFormat.recordId h ∉
          rest.map (fun p => QIIME1DemuxFormat.recordId p.1) :=
        (List.nodup_cons.mp hnodup).1
      have hrestnodup : (rest.map (fun p => QIIME1DemuxFormat.recordId p.1)).Nodup :=
        (List.nodup_cons.mp hnodup).2
      have havoid2 : ∀ q ∈ rest,
          QIIME1DemuxFormat.recordId q.1 ∉ QIIME1DemuxFormat.recordId h :: ids := by
        intro q hq hmem
        rcases List.mem_cons.mp hmem with heq | hin
        · exact hheadmap (List.mem_map.mpr ⟨q, hq, heq⟩)
        · exact havoid q (List.mem_cons_of_mem _ hq) hin
      have hwf2 : ∀ q ∈ rest,
          QIIME1DemuxFormat.parseId (pyRstripNL q.1) = some (QIIME1DemuxFormat.recordId q.1)
          ∧ QIIME1DemuxFormat.validId (QIIME1DemuxFormat.recordId q.1) = true
          ∧ QIIME1DemuxFormat.validSeq (pyRstripNL q.2) = true :=
        fun q hq => hwf q (List.mem_cons_of_mem _ hq)
      obtain ⟨ids2, hscan, hmono, _⟩ :=
        ih f (QIIME1DemuxFormat.recordId h :: ids) hwf2 hrestnodup havoid2
      refine ⟨ids2, ?_, fun _ => hmono (by simp), fun _ _ => hmono (by simp)⟩
      have hrl : recordLines ((h, s) :: rest) = h :: s :: recordLines rest := rfl
      rw [hrl]
      simp only [QIIME1DemuxFormat.scanRecords, hparse]
      simp [hnotmem, hvid, hvseq, hscan]

/-- If some record within the scanned range carries an ID that fails the
grammar check, the scan raises, whatever else the stream contains. -/
lemma QIIME1DemuxFormat.scanRecords_bad (id : String)
    (hbadv : QIIME1DemuxFormat.validId id = false) :
    ∀ (recs : List (String × String)) (k : Nat) (fuel : Nat) (ids : List String)
      (hkl : k < recs.length), k < fuel →
      QIIME1DemuxFormat.parseId (pyRstripNL (recs.get ⟨k, hkl⟩).1) = some id →
      QIIME1DemuxFormat.scanRecords (recordLines recs) fuel ids = none := by
  intro recs
  induction recs with
  | nil => intro k fuel ids hkl; exact absurd hkl (by simp)
  | cons p rest ih =>
    intro k fuel ids hkl hkfuel hparse
    obtain ⟨h, s⟩ := p
    cases fuel with
    | zero => exact absurd hkfuel (by omega)
    | succ f =>
      have hrl : recordLines ((h, s) :: rest) = h :: s :: recordLines rest := rfl
      rw [hrl]
      cases k with
      | zero =>
        have hparse0 : QIIME1DemuxFormat.parseId (pyRstripNL h) = some id := by
          simpa using hparse
        simp only [QIIME1DemuxFormat.scanRecords, hparse0]
        by_cases hmem : id ∈ ids
        · simp [hmem]
        · simp [hmem, hbadv]
      | succ k0 =>
        have hkl0 : k0 < rest.length := by
          simpa using Nat.lt_of_succ_lt_succ hkl
        have hparse0 :
            QIIME1DemuxFormat.parseId (pyRstripNL (rest.get ⟨k0, hkl0⟩).1) = some id := by
          simpa using hparse
        cases hp : QIIME1DemuxFormat.parseId (pyRstripNL h) with
        | none => simp [QIIME1DemuxFormat.scanRecords, hp]
        | some id0 =>
          simp only [QIIME1DemuxFormat.scanRecords, hp]
          by_cases hmem : id0 ∈ ids
          · simp [hmem]
          · by_cases hv : QIIME1DemuxFormat.validId id0
            · by_cases hs : QIIME1DemuxFormat.validSeq (pyRstripNL s)
              · simp [hmem, hv, hs]
                exact ih k0 f (id0 :: ids) hkl0 (Nat.lt_of_succ_lt_succ hkfuel) hparse0
              · simp [hmem, hv, hs]
            · simp [hmem, hv]

/-- A stream made of complete records followed by one dangling line raises
an incomplete-record failure, provided the dangling line lies within the
scanned range. -/
lemma QIIME1DemuxFormat.scanRecords_odd :
    ∀ (recs : List (String × String)) (fuel : Nat) (ids : List String) (lastLine : String),
      recs.length < fuel →
      QIIME1DemuxFormat.scanRecords (recordLines recs ++ [lastLine]) fuel ids = none := by
  intro recs
  induction recs with
  | nil =>
    intro fuel ids lastLine hlen
    cases fuel with
    | zero => exact absurd hlen (by omega)
    | succ f => rfl
  | cons p rest ih =>
    intro fuel ids lastLine hlen
    obtain ⟨h, s⟩ := p
    cases fuel with
    | zero => exact absurd hlen (by omega)
    | succ f =>
      have hlen0 : rest.length < f := by
        simpa using Nat.lt_of_succ_lt_succ hlen
      have hrl : recordLines ((h, s) :: rest) ++ [lastLine] =
          h :: s :: (recordLines rest ++ [lastLine]) := rfl
      rw [hrl]
      cases hp : QIIME1DemuxFormat.parseId (pyRstripNL h) with
      | none => simp [QIIME1DemuxFormat.scanRecords, hp]
      | some id0 =>
        simp only [QIIME1DemuxFormat.scanRecords, hp]
        by_cases hmem : id0 ∈ ids
        · simp [hmem]
        · by_cases hv : QIIME1DemuxFormat.validId id0
          · by_cases hs : QIIME1DemuxFormat.validSeq (pyRstripNL s)
            · simp [hmem, hv, hs]
              exact ih f (id0 :: ids) lastLine hlen0
            · simp [hmem, hv, hs]
          · simp [hmem, hv]

/-! Lemmas about the Casava filename builders and patterns. -/

/-- String concatenation concatenates the underlying character lists. -/
lemma strToList_append (s t : String) : (s ++ t).toList = s.toList ++ t.toList := rfl

/-- A non-empty string has a non-empty character list. -/
lemma strToList_ne_nil (s : String) (h : s ≠ "") : s.toList ≠ [] := by
  cases s with
  | mk data =>
    intro hd
    apply h
    simp [String.toList] at hd
    simp [hd]

/-- The decimal digit characters produced for values below ten lie in the
class `[0-9]`. -/
lemma digitChar_isRegexDigit (m : Nat) (h : m < 10) :
    isRegexDigit (Nat.digitChar m) = true := by
  interval_cases m <;> decide

/-- A `[0-9]` character is not a newline. -/
lemma isRegexDigit_ne_newline (c : Char) (h : isRegexDigit c = true) : c ≠ '\n' := by
  intro heq
  subst heq
  simp [isRegexDigit] at h

/-- `%03d` of a lane number below 1000 is its three zero-padded decimal
digit characters. -/
lemma sprintf03d_toList (n : Nat) (h : n < 1000) :
    (sprintf03d n).toList =
      [Nat.digitChar (n / 100), Nat.digitChar (n / 10 % 10), Nat.digitChar (n % 10)] := by
  simp [sprintf03d, h]

/-- A string matching the per-lane Casava pattern contains no newline. -/
lemma matchesCasavaRegex_no_newline (s : String) (hm : matchesCasavaRegex s) :
    '\n' ∉ s.toList := by
  obtain ⟨a, b, d1, d2, d3, r, _, _, hna, hnb, hd1, hd2, hd3, hr, heq⟩ := hm
  intro hmem
  rw [heq] at hmem
  rcases List.mem_append.mp hmem with h | h
  · exact hna '\n' h rfl
  · rcases List.mem_cons.mp h with h | h
    · exact absurd h.symm (by decide)
    · rcases List.mem_append.mp h with h | h
      · exact hnb '\n' h rfl
      · simp only [List.mem_cons] at h
        rcases h with h | h | h | h | h | h | h | h
        · exact absurd h (by decide)
        · exact absurd h (by decide)
        · exact isRegexDigit_ne_newline d1 hd1 h.symm
        · exact isRegexDigit_ne_newline d2 hd2 h.symm
        · exact isRegexDigit_ne_newline d3 hd3 h.symm
        · exact absurd h (by decide)
        · exact absurd h (by decide)
        · rcases h with h | h
          · rcases hr with hr | hr <;> rw [hr] at h <;> exact absurd h (by decide)
          · revert h; decide

/-! Claim theorems. -/

/-- C1 (amended): for a manifest stream whose first non-blank, non-comment
line splits on `,` into exactly the expected header of the variant, sniff
returns true when there is at least one subsequent non-blank, non-comment
data row and every data row among the first 10 scanned has the header's
cell count; it returns false when there is no data row (header only); and
it returns false when the first non-blank, non-comment line differs from
the expected header.  (The original claim asked only that SOME subsequent
data row have the header's cell count, which the counterexample refutes:
an earlier divergent data row forces `false`.) -/
theorem manifest_sniff_header_and_rows (exp : List String) (lines : List String)
    (h : String) (rows : List String)
    (_hexp : exp = FastqManifestFormat.EXPECTED_HEADER ∨
             exp = FastqAbsolutePathManifestFormat.EXPECTED_HEADER)
    (hm : meaningfulLines lines = h :: rows) :
    ((rowCells h = exp ∧ rows ≠ [] ∧
        ∀ r ∈ rows.take 10, (rowCells r).length = exp.length) →
      FastqManifestBase.sniff exp lines = true)
    ∧ ((rowCells h = exp ∧ rows = []) → FastqManifestBase.sniff exp lines = false)
    ∧ (rowCells h ≠ exp → FastqManifestBase.sniff exp lines = false) := by
  have hs2 : FastqManifestBase.sniff exp lines =
      if rowCells h = exp then countRows exp.length rows 0 else false := by
    have hs := sniff_eq_meaningful exp lines
    rw [hm] at hs
    exact hs
  refine ⟨?_, ?_, ?_⟩
  · rintro ⟨hh, hne, hall⟩
    rw [hs2, if_pos hh]
    exact countRows_all_conform exp.length rows 0 (by omega) (Or.inr hne) (by simpa using hall)
  · rintro ⟨hh, hrows⟩
    rw [hs2, if_pos hh, hrows]
    rfl
  · intro hne
    rw [hs2, if_neg hne]

/-- C1 witness: the three discharged conclusions at concrete streams — a
header plus one conforming row sniffs true, a header alone sniffs false,
and a wrong first meaningful line sniffs false. -/
theorem manifest_sniff_header_and_rows_example :
    FastqManifestBase.sniff FastqManifestFormat.EXPECTED_HEADER
      ["sample-id,filename,direction\n", "a,b,c\n"] = true
    ∧ FastqManifestBase.sniff FastqManifestFormat.EXPECTED_HEADER
      ["sample-id,filename,direction\n"] = false
    ∧ FastqManifestBase.sniff FastqManifestFormat.EXPECTED_HEADER
      ["oops\n", "a,b,c\n"] = false :=
  ⟨(manifest_sniff_header_and_rows FastqManifestFormat.EXPECTED_HEADER
      ["sample-id,filename,direction\n", "a,b,c\n"] "sample-id,filename,direction\n"
      ["a,b,c\n"] (Or.inl rfl) (by decide)).1 ⟨by decide, by decide, by decide⟩,
   (manifest_sniff_header_and_rows FastqManifestFormat.EXPECTED_HEADER
      ["sample-id,filename,direction\n"] "sample-id,filename,direction\n"
      [] (Or.inl rfl) (by decide)).2.1 ⟨by decide, rfl⟩,
   (manifest_sniff_header_and_rows FastqManifestFormat.EXPECTED_HEADER
      ["oops\n", "a,b,c\n"] "oops\n" ["a,b,c\n"] (Or.inl rfl) (by decide)).2.2 (by decide)⟩

/-- C1 counterexample: a stream with the correct header that CONTAINS a
subsequent non-blank, non-comment data row with the header's cell count
(`a,b,c`), yet sniffs false, because an earlier data row (`a,b`)
diverges.  The claim as stated requires `true` here. -/
theorem manifest_conforming_row_insufficient :
    rowCells "sample-id,filename,direction\n" = FastqManifestFormat.EXPECTED_HEADER
    ∧ isBlankLine "a,b,c\n" = false
    ∧ isCommentLine "a,b,c\n" = false
    ∧ (rowCells "a,b,c\n").length = FastqManifestFormat.EXPECTED_HEADER.length
    ∧ FastqManifestBase.sniff FastqManifestFormat.EXPECTED_HEADER
        ["sample-id,filename,direction\n", "a,b\n", "a,b,c\n"] = false := by
  decide

/-- C6 (amended): every line whose characters before its newline are only
SPACES is skipped by the manifest sniffer — inserting such a line anywhere
never changes the verdict.  (The original claim extended this to tabs,
which the counterexample refutes: the code strips only `' '` on the
left.) -/
theorem manifest_blank_line_invariant (exp : List String) (pre post : List String)
    (bl : String) (hbl : isBlankLine bl = true) :
    FastqManifestBase.sniff exp (pre ++ bl :: post) =
      FastqManifestBase.sniff exp (pre ++ post) :=
  sniffAux_insert_blank exp bl hbl post pre 0 none

/-- C6 witness: inserting the space-only line `' \n'` in the middle of a
valid manifest leaves the verdict unchanged. -/
theorem manifest_blank_line_invariant_example :
    isBlankLine " \n" = true
    ∧ FastqManifestBase.sniff FastqManifestFormat.EXPECTED_HEADER
        (["sample-id,filename,direction\n"] ++ " \n" :: ["a,b,c\n"]) =
      FastqManifestBase.sniff FastqManifestFormat.EXPECTED_HEADER
        (["sample-id,filename,direction\n"] ++ ["a,b,c\n"]) :=
  ⟨by decide,
   manifest_blank_line_invariant FastqManifestFormat.EXPECTED_HEADER
     ["sample-id,filename,direction\n"] ["a,b,c\n"] " \n" (by decide)⟩

/-- C6 counterexample: a line consisting only of whitespace (one tab)
before its newline is NOT skipped — `lstrip(' ')` strips only spaces — so
inserting `'\t\n'` in front of a manifest that sniffs true flips the
verdict to false. -/
theorem manifest_tab_line_not_blank :
    (∀ c ∈ (pyRstripNL "\t\n").toList, isPySpace c = true)
    ∧ isBlankLine "\t\n" = false
    ∧ FastqManifestBase.sniff FastqManifestFormat.EXPECTED_HEADER
        ["sample-id,filename,direction\n", "a,b,c\n"] = true
    ∧ FastqManifestBase.sniff FastqManifestFormat.EXPECTED_HEADER
        ("\t\n" :: ["sample-id,filename,direction\n", "a,b,c\n"]) = false := by
  decide

/-- C7: with a correct header, a data row among the first 10 scanned whose
comma cell count differs from the header's forces the verdict false,
wherever it sits among those 10; and rows after the 10th scanned data line
never affect the verdict (the stream sniffs the same as its truncation to
the header and the first 10 data rows). -/
theorem manifest_sniff_divergent_row (exp : List String) (lines : List String)
    (h : String) (rows : List String)
    (hm : meaningfulLines lines = h :: rows) (hh : rowCells h = exp) :
    ((∃ r ∈ rows.take 10, (rowCells r).length ≠ exp.length) →
       FastqManifestBase.sniff exp lines = false)
    ∧ FastqManifestBase.sniff exp lines =
        FastqManifestBase.sniff exp (h :: rows.take 10) := by
  have hs2 : FastqManifestBase.sniff exp lines =
      if rowCells h = exp then countRows exp.length rows 0 else false := by
    have hs := sniff_eq_meaningful exp lines
    rw [hm] at hs
    exact hs
  have hall : ∀ x ∈ h :: rows, meaningfulPred x = true := by
    intro x hx
    have hx2 : x ∈ meaningfulLines lines := by rw [hm]; exact hx
    exact List.of_mem_filter hx2
  have hall2 : ∀ x ∈ h :: rows.take 10, meaningfulPred x = true := by
    intro x hx
    rcases List.mem_cons.mp hx with hx | hx
    · rw [hx]
      exact hall h (List.mem_cons_self h rows)
    · exact hall x (List.mem_cons_of_mem h (memOfMemTake hx))
  have hm2 : meaningfulLines (h :: rows.take 10) = h :: rows.take 10 :=
    meaningfulLines_of_all _ hall2
  have hs3 : FastqManifestBase.sniff exp (h :: rows.take 10) =
      if rowCells h = exp then countRows exp.length (rows.take 10) 0 else false := by
    have hs := sniff_eq_meaningful exp (h :: rows.take 10)
    rw [hm2] at hs
    exact hs
  constructor
  · intro hdiv
    rw [hs2, if_pos hh]
    exact countRows_divergent exp.length rows 0 (by simpa using hdiv)
  · rw [hs2, hs3, if_pos hh, if_pos hh]
    have ht := countRows_take exp.length rows 0
    simpa using ht

/-- C7 witness: with a correct header, a short row in second data position
forces false; and the verdict of a 2-data-row stream equals that of its
truncation to the first 10 data rows (identical here). -/
theorem manifest_sniff_divergent_row_example :
    FastqManifestBase.sniff FastqManifestFormat.EXPECTED_HEADER
      ["sample-id,filename,direction\n", "a,b,c\n", "a,b\n"] = false
    ∧ FastqManifestBase.sniff FastqManifestFormat.EXPECTED_HEADER
        ["sample-id,filename,direction\n", "a,b,c\n", "a,b\n"] =
      FastqManifestBase.sniff FastqManifestFormat.EXPECTED_HEADER
        ("sample-id,filename,direction\n" :: ["a,b,c\n", "a,b\n"].take 10) :=
  ⟨(manifest_sniff_divergent_row FastqManifestFormat.EXPECTED_HEADER
      ["sample-id,filename,direction\n", "a,b,c\n", "a,b\n"]
      "sample-id,filename,direction\n" ["a,b,c\n", "a,b\n"]
      (by decide) (by decide)).1 (by decide),
   (manifest_sniff_divergent_row FastqManifestFormat.EXPECTED_HEADER
      ["sample-id,filename,direction\n", "a,b,c\n", "a,b\n"]
      "sample-id,filename,direction\n" ["a,b,c\n", "a,b\n"]
      (by decide) (by decide)).2⟩

/-- C4 (amended): a completely empty stream sniffs false for the manifest
formats (either header variant, and any expected header), for
FastqGzFormat (whatever the external capabilities would answer), and for
QIIME1DemuxFormat.  (The original claim extended this to YamlFormat, which
the counterexample refutes: the empty stream parses as YAML, so
`YamlFormat.sniff` returns true on it.) -/
theorem empty_stream_sniffs_false (exp : List String) (ok : Bool)
    (rd : Except Unit Unit) :
    FastqManifestBase.sniff exp [] = false
    ∧ FastqGzFormat.sniff [] ok rd = false
    ∧ QIIME1DemuxFormat.sniff [] = false := by
  refine ⟨rfl, ?_, rfl⟩
  simp [FastqGzFormat.sniff, gzipMagic]

/-- C4 counterexample: `YamlFormat.sniff` on the empty stream returns
true — pyyaml's `safe_load` parses the empty stream (as `null`) without
raising `YAMLError` — so "empty file → false for every format" fails for
YamlFormat. -/
theorem yaml_empty_stream_sniffs_true :
    YamlFormat.sniff yamlSafeLoadOk "" = true := rfl

/-- C5: the boolean sniff entry points fold every content, grammar, or
structural failure into `false` instead of raising: any raised failure of
`QIIME1DemuxFormat._validate` (a `none` scan) makes its sniff return
false, and a `ValueError` from the DNA-validating FASTQ reader (invalid
alphabet characters or structural errors in the first 15 records) makes
`FastqGzFormat.sniff` return false, for every stream.  The manifest
sniffer is a total boolean loop with no failure channel at all, which the
embedding reflects in its type. -/
theorem sniff_folds_failures_to_false :
    (∀ lines : List String, QIIME1DemuxFormat.scanRecords lines 30 [] = none →
       QIIME1DemuxFormat.sniff lines = false)
    ∧ (∀ (contents : List Nat) (ok : Bool),
        FastqGzFormat.sniff contents ok (Except.error ()) = false) := by
  constructor
  · intro lines hscan
    simp [QIIME1DemuxFormat.sniff, QIIME1DemuxFormat.validate, hscan]
  · intro contents ok
    by_cases hmagic : contents.take 2 ≠ gzipMagic
    · simp [FastqGzFormat.sniff, hmagic]
    · cases ok <;> simp [FastqGzFormat.sniff, hmagic]

/-- C5 witness: a lone dangling FASTA header is folded to false, and a
gzip-magic stream whose DNA read raises is folded to false. -/
theorem sniff_folds_failures_to_false_example :
    QIIME1DemuxFormat.sniff [">s1_0\n"] = false
    ∧ FastqGzFormat.sniff [31, 139] true (Except.error ()) = false :=
  ⟨sniff_folds_failures_to_false.1 [">s1_0\n"] (by decide),
   sniff_folds_failures_to_false.2 [31, 139] true⟩

/-- C9: whenever the first two bytes of the stream are not `0x1F 0x8B` —
including streams shorter than two bytes — `FastqGzFormat.sniff` returns
false whatever the external FASTQ sniffer or reader would have answered,
i.e. without decompressing or reading further content. -/
theorem gzip_magic_required (contents : List Nat) (ok : Bool) (rd : Except Unit Unit)
    (h : contents.take 2 ≠ gzipMagic) :
    FastqGzFormat.sniff contents ok rd = false := by
  simp [FastqGzFormat.sniff, h]

/-- C9 witness: a one-byte stream (shorter than the magic) sniffs false
even with both external capabilities answering positively. -/
theorem gzip_magic_required_example :
    FastqGzFormat.sniff [31] true (Except.ok ()) = false :=
  gzip_magic_required [31] true (Except.ok ()) (by decide)

/-- C2: a demultiplexed-FASTA stream of N ≥ 1 exactly-two-line records, in
which every header parses (starts with `>`), every record ID passes the
rightmost-underscore grammar, every sequence line is non-empty valid DNA,
and the record IDs are pairwise distinct, sniffs true. -/
theorem qiime1_wellformed_sniffs_true (recs : List (String × String))
    (hne : recs ≠ [])
    (hwf : ∀ p ∈ recs,
      QIIME1DemuxFormat.parseId (pyRstripNL p.1) = some (QIIME1DemuxFormat.recordId p.1)
      ∧ QIIME1DemuxFormat.validId (QIIME1DemuxFormat.recordId p.1) = true
      ∧ QIIME1DemuxFormat.validSeq (pyRstripNL p.2) = true)
    (hnodup : (recs.map (fun p => QIIME1DemuxFormat.recordId p.1)).Nodup) :
    QIIME1DemuxFormat.sniff (recordLines recs) = true := by
  obtain ⟨ids2, hscan, _, hne2⟩ :=
    QIIME1DemuxFormat.scanRecords_ok recs 30 [] hwf hnodup (by simp)
  have hids : ids2 ≠ [] := hne2 hne (by omega)
  simp [QIIME1DemuxFormat.sniff, QIIME1DemuxFormat.validate, hscan, hids]

/-- C2 witness: the spec's example stream `>s1_0\nACGT\n>s1_1\nTTTT\n`
sniffs true. -/
theorem qiime1_wellformed_sniffs_true_example :
    QIIME1DemuxFormat.sniff [">s1_0\n", "ACGT\n", ">s1_1\n", "TTTT\n"] = true :=
  qiime1_wellformed_sniffs_true [(">s1_0\n", "ACGT\n"), (">s1_1\n", "TTTT\n")]
    (by decide) (by decide) (by decide)

/-- C3 (amended): a record whose extracted ID has no underscore, or whose
rightmost-underscore split leaves an empty side, always fails the ID
grammar check, and — provided the record lies among the first 30 records,
the sniffing cap — the whole stream sniffs false; the split is on the
LAST underscore, so sample IDs may themselves contain underscores
(`s_1_0` splits into `s_1` and `0` and is valid).  (The original claim had
no position restriction, which the counterexample refutes: a malformed ID
in record 31 is never examined.) -/
theorem qiime1_malformed_id_rejected (recs : List (String × String)) (k : Nat)
    (id : String) (hkl : k < recs.length) (hk : k < 30)
    (hid : QIIME1DemuxFormat.parseId (pyRstripNL (recs.get ⟨k, hkl⟩).1) = some id)
    (hbad : (pyRsplitUnderscore id).length ≠ 2 ∨ "" ∈ pyRsplitUnderscore id) :
    QIIME1DemuxFormat.validId id = false
    ∧ QIIME1DemuxFormat.sniff (recordLines recs) = false
    ∧ pyRsplitUnderscore "s_1_0" = ["s_1", "0"]
    ∧ QIIME1DemuxFormat.validId "s_1_0" = true := by
  have hbadv : QIIME1DemuxFormat.validId id = false := by
    rcases hbad with hb | hb
    · simp [QIIME1DemuxFormat.validId, hb]
    · cases hall : (pyRsplitUnderscore id).all (fun p => p ≠ "") with
      | false =>
        simp [QIIME1DemuxFormat.validId, hall]
        exact fun _ => hb
      | true =>
        exfalso
        have h2 := List.all_eq_true.mp hall "" hb
        simp at h2
  have hscan := QIIME1DemuxFormat.scanRecords_bad id hbadv recs k 30 [] hkl hk hid
  exact ⟨hbadv,
    by simp [QIIME1DemuxFormat.sniff, QIIME1DemuxFormat.validate, hscan],
    by decide, by decide⟩

/-- C3 witness: the spec's example `>sample0\nACGT\n` (ID without an
underscore) sniffs false, and `s_1_0` demonstrates the rightmost-underscore
split. -/
theorem qiime1_malformed_id_rejected_example :
    QIIME1DemuxFormat.validId "sample0" = false
    ∧ QIIME1DemuxFormat.sniff [">sample0\n", "ACGT\n"] = false
    ∧ pyRsplitUnderscore "s_1_0" = ["s_1", "0"]
    ∧ QIIME1DemuxFormat.validId "s_1_0" = true :=
  qiime1_malformed_id_rejected [(">sample0\n", "ACGT\n")] 0 "sample0"
    (by decide) (by decide) (by decide) (Or.inl (by decide))

/-- C3 counterexample: a stream whose 31st record has the malformed ID
`sample0` (no underscore) sniffs TRUE, because sniffing validates only the
first 30 records; the claim as stated requires false for every stream
containing such a record. -/
theorem qiime1_malformed_id_beyond_cap :
    QIIME1DemuxFormat.parseId (pyRstripNL ">sample0\n") = some "sample0"
    ∧ QIIME1DemuxFormat.validId "sample0" = false
    ∧ QIIME1DemuxFormat.sniff
        [">a_0\n", "ACGT\n", ">a_1\n", "ACGT\n", ">a_2\n", "ACGT\n",
         ">a_3\n", "ACGT\n", ">a_4\n", "ACGT\n", ">a_5\n", "ACGT\n",
         ">a_6\n", "ACGT\n", ">a_7\n", "ACGT\n", ">a_8\n", "ACGT\n",
         ">a_9\n", "ACGT\n", ">a_10\n", "ACGT\n", ">a_11\n", "ACGT\n",
         ">a_12\n", "ACGT\n", ">a_13\n", "ACGT\n", ">a_14\n", "ACGT\n",
         ">a_15\n", "ACGT\n", ">a_16\n", "ACGT\n", ">a_17\n", "ACGT\n",
         ">a_18\n", "ACGT\n", ">a_19\n", "ACGT\n", ">a_20\n", "ACGT\n",
         ">a_21\n", "ACGT\n", ">a_22\n", "ACGT\n", ">a_23\n", "ACGT\n",
         ">a_24\n", "ACGT\n", ">a_25\n", "ACGT\n", ">a_26\n", "ACGT\n",
         ">a_27\n", "ACGT\n", ">a_28\n", "ACGT\n", ">a_29\n", "ACGT\n",
         ">sample0\n", "ACGT\n"] = true := by
  decide

/-- C8: a stream of complete two-line records followed by a final dangling
header line — an odd number of lines — raises the incomplete-record
failure and sniffs false, provided the dangling line lies within the
30-record sniffing cap. -/
theorem qiime1_odd_stream_rejected (recs : List (String × String)) (lastLine : String)
    (hlen : recs.length < 30) :
    QIIME1DemuxFormat.scanRecords (recordLines recs ++ [lastLine]) 30 [] = none
    ∧ QIIME1DemuxFormat.sniff (recordLines recs ++ [lastLine]) = false := by
  have hscan := QIIME1DemuxFormat.scanRecords_odd recs 30 [] lastLine hlen
  exact ⟨hscan, by simp [QIIME1DemuxFormat.sniff, QIIME1DemuxFormat.validate, hscan]⟩

/-- C8 witness: the spec's example `>s1_0\nACGT\n>s1_1\n` raises and sniffs
false. -/
theorem qiime1_odd_stream_rejected_example :
    QIIME1DemuxFormat.scanRecords [">s1_0\n", "ACGT\n", ">s1_1\n"] 30 [] = none
    ∧ QIIME1DemuxFormat.sniff [">s1_0\n", "ACGT\n", ">s1_1\n"] = false :=
  qiime1_odd_stream_rejected [(">s1_0\n", "ACGT\n")] ">s1_1\n" (by decide)

/-- C10 (amended): for every identifier tuple with non-empty sample and
barcode IDs containing no newline character, a lane number between 0 and
999, and a read number of 1 or 2, the per-sample-per-lane path builder's
output matches the collection's pattern
`.+_.+_L[0-9][0-9][0-9]_R[12]_001\.fastq\.gz` with the lane rendered as
exactly 3 zero-padded digits, and the laneless builder's output matches
`.+_.+_R[12]_001\.fastq\.gz`.  (The original claim required only
non-emptiness of the identifiers, which the counterexample refutes: `.`
in a Python pattern does not match a newline, so an identifier containing
`'\n'` produces a filename the pattern rejects.) -/
theorem casava_path_maker_matches (sample_id barcode_id : String) (lane read : Nat)
    (hs : sample_id ≠ "") (hb : barcode_id ≠ "")
    (hsn : ∀ c ∈ sample_id.toList, c ≠ '\n') (hbn : ∀ c ∈ barcode_id.toList, c ≠ '\n')
    (hlane : lane ≤ 999) (hread : read = 1 ∨ read = 2) :
    matchesCasavaRegex
      (CasavaOneEightSingleLanePerSampleDirFmt.sequences_path_maker
        sample_id barcode_id lane read)
    ∧ (sprintf03d lane).toList.length = 3
    ∧ (∀ c ∈ (sprintf03d lane).toList, isRegexDigit c = true)
    ∧ matchesLanelessRegex
      (CasavaOneEightLanelessPerSampleDirFmt.sequences_path_maker
        sample_id barcode_id read) := by
  have hlt : lane < 1000 := by omega
  have hdl := sprintf03d_toList lane hlt
  have hd1 : isRegexDigit (Nat.digitChar (lane / 100)) = true :=
    digitChar_isRegexDigit _ (by omega)
  have hd2 : isRegexDigit (Nat.digitChar (lane / 10 % 10)) = true :=
    digitChar_isRegexDigit _ (by omega)
  have hd3 : isRegexDigit (Nat.digitChar (lane % 10)) = true :=
    digitChar_isRegexDigit _ (by omega)
  have hread2 : ∃ rc, (toString read).toList = [rc] ∧ (rc = '1' ∨ rc = '2') := by
    rcases hread with hr | hr <;> subst hr
    · exact ⟨'1', by decide, Or.inl rfl⟩
    · exact ⟨'2', by decide, Or.inr rfl⟩
  obtain ⟨rc, hrc, hrc12⟩ := hread2
  refine ⟨?_, ?_, ?_, ?_⟩
  · refine ⟨sample_id.toList, barcode_id.toList,
      Nat.digitChar (lane / 100), Nat.digitChar (lane / 10 % 10), Nat.digitChar (lane % 10),
      rc, strToList_ne_nil _ hs, strToList_ne_nil _ hb, hsn, hbn, hd1, hd2, hd3, hrc12, ?_⟩
    unfold CasavaOneEightSingleLanePerSampleDirFmt.sequences_path_maker
    simp only [strToList_append, hdl, hrc]
    have e1 : "_".toList = ['_'] := rfl
    have e2 : "_L".toList = ['_', 'L'] := rfl
    have e3 : "_R".toList = ['_', 'R'] := rfl
    rw [e1, e2, e3]
    simp [List.append_assoc]
  · rw [hdl]
    rfl
  · rw [hdl]
    intro c hc
    rcases List.mem_cons.mp hc with h | hc
    · rw [h]; exact hd1
    · rcases List.mem_cons.mp hc with h | hc
      · rw [h]; exact hd2
      · rcases List.mem_cons.mp hc with h | hc
        · rw [h]; exact hd3
        · simp at hc
  · refine ⟨sample_id.toList, barcode_id.toList, rc,
      strToList_ne_nil _ hs, strToList_ne_nil _ hb, hsn, hbn, hrc12, ?_⟩
    unfold CasavaOneEightLanelessPerSampleDirFmt.sequences_path_maker
    simp only [strToList_append, hrc]
    have e1 : "_".toList = ['_'] := rfl
    have e3 : "_R".toList = ['_', 'R'] := rfl
    rw [e1, e3]
    simp [List.append_assoc]

/-- C10 witness: a concrete valid tuple — sample `s1`, barcode `AAA`,
lane 1, read 2 — yields pattern-matching filenames with a 3-digit lane. -/
theorem casava_path_maker_matches_example :
    matchesCasavaRegex
      (CasavaOneEightSingleLanePerSampleDirFmt.sequences_path_maker "s1" "AAA" 1 2)
    ∧ (sprintf03d 1).toList.length = 3
    ∧ (∀ c ∈ (sprintf03d 1).toList, isRegexDigit c = true)
    ∧ matchesLanelessRegex
      (CasavaOneEightLanelessPerSampleDirFmt.sequences_path_maker "s1" "AAA" 2) :=
  casava_path_maker_matches "s1" "AAA" 1 2 (by decide) (by decide) (by decide) (by decide)
    (by omega) (Or.inr rfl)

/-- C10 counterexample: the tuple (`a\nb`, `x`, 1, 1) has non-empty
identifiers, a lane in range and read 1, yet the built filename does not
match the pattern, because `.` in a Python regular expression does not
match the newline inside the sample ID. -/
theorem casava_path_maker_newline_cex :
    CasavaOneEightSingleLanePerSampleDirFmt.sequences_path_maker "a\nb" "x" 1 1 =
      "a\nb_x_L001_R1_001.fastq.gz"
    ∧ ¬ matchesCasavaRegex "a\nb_x_L001_R1_001.fastq.gz" := by
  constructor
  · decide
  · intro hm
    exact matchesCasavaRegex_no_newline _ hm (by decide)
